import Mathlib

/-!
Shallow embedding of the `clot` command-line option tree library
(`src/lib.rs`, `src/node.rs`), covering the command-tree data model,
the builder API with its construction-time validation, the dispatch
driver `Clot::execute_with`, the `Node::branch` matching protocol and
the help renderer.

Modelling conventions:
* `OsString` tokens become `Token`: valid UTF-8 text, or a non-UTF-8
  blob identified by a numeric tag (`OsStr::to_str` succeeds exactly on
  the former).
* Terminal handlers (`fn(&dyn Opts)` pointers) are identified by `Nat`
  ids; observable behaviour is a list of events: printed text chunks
  (color styling omitted, text structure kept) and handler invocations.
* The one-shot `Cell<Option<F>>` constructor of a `Cmd` layer is an
  `Option Clot` field holding the subtree the `FnOnce` would build
  (`some` = still present, `none` = already taken); `take().unwrap()`
  on an empty cell is a panic, modelled by an `Option.none` result.
* The mutually recursive dispatch functions carry a `fuel` argument so
  that the recursion is structural; every theorem below either
  quantifies over the fuel offset or instantiates a fuel that is
  visibly sufficient.
-/

namespace ClotSpec

/-- Raw OS argument token (`OsString`): either valid UTF-8 text or a
non-UTF-8 byte blob identified by a tag. -/
inductive Token where
  | str : String → Token
  | raw : Nat → Token
deriving DecidableEq, Repr

/-- Models `OsStr::to_str`: succeeds exactly on valid UTF-8 tokens. -/
def Token.toStr : Token → Option String
  | .str s => some s
  | .raw _ => none

/-- Models `OsStr::to_string_lossy` (used only for display): non-UTF-8
data renders as the replacement character. -/
def Token.lossy : Token → String
  | .str s => s
  | .raw _ => "�"

/-- Observable effects of building help text and dispatching: a printed
text chunk (one `println!` call, styling omitted), or the invocation of
a terminal handler identified by its id. -/
inductive Ev where
  | out : String → Ev
  | run : Nat → Ev
deriving DecidableEq, Repr

mutual
/-- The closed set of `Node` implementors in `src/node.rs`:
`Help(&'static str)` (line 41) and
`Cmd { prev, name, f : Cell<Option<F>> }` (line 98).  The constructor
cell holds the `Clot` subtree the stored `FnOnce` would produce. -/
inductive Node where
  | help : String → Node
  | cmd : Node → String → Option Clot → Node

/-- Models `Clot<T> { opts : T, cmd_fn : Option<CmdFn> }`
(src/lib.rs:134). -/
inductive Clot where
  | mk : Node → Option Nat → Clot
end

/-- Field accessor for `Clot.opts`. -/
def Clot.opts : Clot → Node
  | .mk o _ => o

/-- Field accessor for `Clot.cmd_fn`. -/
def Clot.cmd_fn : Clot → Option Nat
  | .mk _ f => f

/-- Models `Node::has_fields` (src/node.rs:50,113): `Help` reports
`false`, `Cmd` delegates to the previous layer. -/
def Node.has_fields : Node → Bool
  | .help _ => false
  | .cmd prev _ _ => prev.has_fields

/-- Models `Node::has_flags` (src/node.rs:54,117). -/
def Node.has_flags : Node → Bool
  | .help _ => false
  | .cmd prev _ _ => prev.has_flags

/-- Models `Node::has_params` (src/node.rs:58,121). -/
def Node.has_params : Node → Bool
  | .help _ => false
  | .cmd prev _ _ => prev.has_params

/-- Models `Node::get_help_text` (src/node.rs:83,152): the description
stored at the root `Help` leaf. -/
def Node.get_help_text : Node → String
  | .help s => s
  | .cmd prev _ _ => prev.get_help_text

/-- Models `Node::help_fields` (src/node.rs:62,125): `Help` prints
nothing, `Cmd` delegates. -/
def Node.help_fields : Node → Token → String
  | .help _, _ => ""
  | .cmd prev _ _, name => prev.help_fields name

/-- Models `Node::help_flags` (src/node.rs:79,144). -/
def Node.help_flags : Node → Bool → Token → String
  | .help _, _, _ => ""
  | .cmd prev _ _, hf, name => prev.help_flags hf name

/-- Models `Node::help_params` (src/node.rs:81,148). -/
def Node.help_params : Node → Token → String
  | .help _, _ => ""
  | .cmd prev _ _, name => prev.help_params name

/-- Models `Node::help_cmds` (src/node.rs:64,129).  Returns the printed
text together with the node as it is afterwards (each visited `Cmd`
layer's constructor cell has been taken); `none` models the panic of
`self.f.take().unwrap()` on an already-empty cell. -/
def Node.help_cmds : Node → Bool → Option (String × Node)
  | .help s, has_fields =>
    let txt := if has_fields then
        "   --help\n      Display this help message\n"
      else
        "   help, --help\n      Display this help message\n"
    some (txt, .help s)
  | .cmd prev nm fcell, has_fields => do
    let sub ← fcell
    let helpText := (Clot.opts sub).get_help_text
    let (prevTxt, prev2) ← prev.help_cmds has_fields
    let line := if has_fields then
        "   --" ++ nm ++ "\n      " ++ helpText ++ "\n"
      else
        "   " ++ nm ++ "\n      " ++ helpText ++ "\n"
    some (prevTxt ++ line, .cmd prev2 nm none)

/-- Models the free function `help` (src/node.rs:188): the full help
screen, printed in fixed order (description, usage synopsis, fields,
flags, params, command list).  Returns the text and the node after
rendering; `none` models a panic inside `help_cmds`. -/
def help (node : Node) (name : Token) (has_fields : Bool) :
    Option (String × Node) := do
  let help_text := node.get_help_text
  let options := if has_fields then
      name.lossy ++ " [OPTIONS] [FIELDS] [OPTIONS]\n"
    else ""
  let header := help_text ++ "\n\nUsage:\n" ++ options ++ "   " ++
    name.lossy ++ " [COMMAND] ...\n\n"
  let fieldsTxt := if has_fields then node.help_fields name else ""
  let flagsTxt := if node.has_flags then node.help_flags has_fields name
    else ""
  let paramsTxt := if node.has_params then node.help_params name else ""
  let (cmdsTxt, node2) ← node.help_cmds has_fields
  some (header ++ fieldsTxt ++ flagsTxt ++ paramsTxt ++
    "Commands:\n" ++ cmdsTxt ++ "\n", node2)

/-- Models `is_help` (src/node.rs:244): with fields only `--help` is a
help token; without fields `help` and `--help` both are.  A non-UTF-8
token is never a help token. -/
def is_help (what : Token) (has_fields : Bool) : Bool :=
  if has_fields then decide (what.toStr = some "--help")
  else decide (what.toStr = some "help" ∨ what.toStr = some "--help")

/-- Models `maybe_help` (src/node.rs:225): whether the token is a help
request, together with the text printed (nothing when `dont_print`).
Result `none` models a panic inside `help`.  The node after rendering is
dropped: the caller (`execute_with`) returns immediately whenever the
rendering branch was taken, and otherwise the node is untouched. -/
def maybe_help (node : Node) (what : Token) (name : Token)
    (dont_print : Bool) : Option (Bool × List Ev) :=
  let has_fields := node.has_fields
  if is_help what has_fields then
    if dont_print then some (true, [])
    else (help node name has_fields).map fun p => (true, [.out p.1])
  else
    some (false, [])

/-- Models `unexpected` (src/lib.rs:256): the two-part error message
(the offending token, then the `--help` hint), one `println!` each. -/
def unexpected (name : Token) (arg : Token) : List Ev :=
  [.out ("Error: Unexpected argument `" ++ arg.lossy ++ "`\n\n"),
   .out ("       Try `" ++ name.lossy ++ " --help` for more information.\n\n")]

/-- Models the enum `Branch` (src/lib.rs:108): the outcome of offering
one token to the tree.  No `Node` implementor under `src/` ever
constructs `Skip` (the `cmds` module is declared but its file is not in
the snapshot); only `execute_with` consumes it. -/
inductive Branch where
  | skip : List Token → Branch
  | help : List Token → Branch
  | done : Branch

/-- Models `str::strip_prefix("--")` on the token text
(src/node.rs:173). -/
def dropDashDash (s : String) : Option String :=
  if s.startsWith "--" then some (s.drop 2) else none

/-- The token text as compared against a layer's command name
(src/node.rs:168-176): a non-UTF-8 token never matches (early
`return Branch::Help`); with fields a leading `--` is required and
stripped; otherwise the text is used verbatim.  Both non-match paths of
the source return `Branch::Help(args)`, so they are merged here. -/
def match_token (what : Token) (has_fields : Bool) : Option String :=
  match what.toStr with
  | none => none
  | some ws => if has_fields then dropDashDash ws else some ws

mutual
/-- Models `Node::branch` for `Help` (src/node.rs:87) and `Cmd`
(src/node.rs:156): the previous layer is tried first; a `Done` from it
is final; otherwise the token is compared (via `match_token`) against
this layer's name; on equality the constructor cell is taken (panic,
i.e. `none`, if already empty) and the remaining cursor is dispatched
into the freshly built subtree; on inequality `Branch::Help` is
returned with the cursor as handed back by the previous layer.  Returns
the outcome, the node afterwards (a matched layer's cell is consumed),
and the events emitted by a completed sub-dispatch. -/
def Node.branch : Nat → Node → Token → Bool → Token → List Token →
    Option (Branch × Node × List Ev)
  | 0, _, _, _, _, _ => none
  | _ + 1, .help s, _, _, _, args => some (.help args, .help s, [])
  | fuel + 1, .cmd prev nm fcell, what, has_fields, name, args =>
    match Node.branch fuel prev what has_fields name args with
    | none => none
    | some (.done, prev2, evs) => some (.done, .cmd prev2 nm fcell, evs)
    | some (.skip args2, prev2, evs) | some (.help args2, prev2, evs) =>
      if match_token what has_fields = some nm then
        match fcell with
        | none => none
        | some sub =>
          match Clot.execute_with fuel sub (.str nm) args2 with
          | none => none
          | some evs2 => some (.done, .cmd prev2 nm none, evs ++ evs2)
      else
        some (.help args2, .cmd prev2 nm fcell, evs)

/-- Models the `while let Some(arg) = args.next()` loop of
`Clot::execute_with` (src/lib.rs:221-240) together with the trailing
`cmd_fn` invocation (src/lib.rs:242-244).  Note that the
`Branch::Help` arm of the source prints the unexpected-argument message
and then `break`s out of the loop, after which the registered `cmd_fn`
is still invoked. -/
def exec_loop : Nat → Node → Option Nat → Bool → Token → List Token →
    Option (List Ev)
  | 0, _, _, _, _, _ => none
  | _ + 1, _, cmd_fn, _, _, [] =>
    match cmd_fn with
    | some h => some [.run h]
    | none => some []
  | fuel + 1, opts, cmd_fn, has_fields, name, arg :: rest =>
    match maybe_help opts arg name (!rest.isEmpty) with
    | none => none
    | some (true, evs) =>
      match rest with
      | [] => some evs
      | a :: _ => some (evs ++ unexpected name a)
    | some (false, _) =>
      match Node.branch fuel opts arg has_fields name rest with
      | none => none
      | some (.skip args2, opts2, evs) =>
        (exec_loop fuel opts2 cmd_fn has_fields name args2).map
          (fun evs2 => evs ++ evs2)
      | some (.help _, _, evs) =>
        some (evs ++ unexpected name arg ++
          (match cmd_fn with
           | some h => [.run h]
           | none => []))
      | some (.done, _, evs) => some evs

/-- Models `Clot::execute_with` (src/lib.rs:212): compute `has_fields`
once, render full help when the cursor is immediately empty and no
terminal handler is registered, then run the token loop. -/
def Clot.execute_with : Nat → Clot → Token → List Token →
    Option (List Ev)
  | 0, _, _, _ => none
  | fuel + 1, .mk opts cmd_fn, name, args =>
    let has_fields := opts.has_fields
    if args.isEmpty && cmd_fn.isNone then
      match help opts name has_fields with
      | none => none
      | some (txt, _) =>
        (exec_loop fuel opts cmd_fn has_fields name args).map
          (fun evs => [.out txt] ++ evs)
    else
      exec_loop fuel opts cmd_fn has_fields name args
end

/-- Models the default methods of the sealed `Opts` trait together with
the blanket `impl<T: Seal> Opts for T` (src/lib.rs:117-131), which
overrides none of them: `flag` is constantly `false`. -/
def Opts.flag (_ : Node) (_ : Char) : Bool := false

/-- Default `Opts::param`: constantly `None` (src/lib.rs:122). -/
def Opts.param (_ : Node) (_ : String) : Option Token := none

/-- Default `Opts::field`: constantly `None` (src/lib.rs:126). -/
def Opts.field (_ : Node) (_ : Nat) : Option Token := none

/-- Models `char::is_ascii_lowercase`. -/
def is_ascii_lowercase (c : Char) : Bool := 'a' ≤ c && c ≤ 'z'

/-- Models the `invalid_char` closure in `Clot::cmd` (src/lib.rs:171):
anything that is neither ASCII lowercase nor `-`. -/
def invalid_char (c : Char) : Bool := !is_ascii_lowercase c && c != '-'

/-- Models `str::split('-')` on the character list. -/
def split_dash : List Char → List (List Char)
  | [] => [[]]
  | c :: rest =>
    if c = '-' then [] :: split_dash rest
    else
      match split_dash rest with
      | [] => [[c]]
      | p :: ps => (c :: p) :: ps

/-- Models `name.split_terminator('-').count()` (src/lib.rs:174): like
`split`, except that a trailing empty piece is not counted. -/
def split_terminator_count (s : String) : Nat :=
  let ps := split_dash s.data
  if ps.getLast? = some [] then ps.length - 1 else ps.length

/-- Models `Clot::new` (src/lib.rs:143). -/
def Clot.new (help_text : String) : Clot := .mk (.help help_text) none

/-- Models `Clot::run` (src/lib.rs:154): registers the terminal
handler. -/
def Clot.run (c : Clot) (f : Nat) : Clot := .mk c.opts (some f)

/-- Models `Clot::cmd` (src/lib.rs:166): the four `assert!` checks in
source order, then wrapping in a `Cmd` layer.  `none` models the
construction-time panic.  The deferred `FnOnce` is represented by the
`Clot` value it would return. -/
def Clot.cmd (c : Clot) (name : String) (sub : Clot) : Option Clot :=
  if name.data.any invalid_char then none
  else if ¬ split_terminator_count name ≤ 3 then none
  else if name.data.head? = some '-' then none
  else if name.data.getLast? = some '-' then none
  else some (.mk (.cmd c.opts name (some sub)) c.cmd_fn)

/-- Models `Clot::field` (src/lib.rs:185): records nothing. -/
def Clot.field (c : Clot) : Clot := c

/-- Models `Clot::param` (src/lib.rs:190): records nothing. -/
def Clot.param (c : Clot) (_name : String) : Clot := c

/-- Models `Clot::flag` (src/lib.rs:195): panics unless the character
is ASCII lowercase, and records nothing. -/
def Clot.flag (c : Clot) (flag : Char) : Option Clot :=
  if !is_ascii_lowercase flag then none else some c

/-- Every constructor cell along the prev-chain is still present: the
state of a tree as the builder produced it. -/
def Node.cells_full : Node → Bool
  | .help _ => true
  | .cmd prev _ fcell => fcell.isSome && prev.cells_full

/-- Number of `Cmd` layers in the prev-chain. -/
def Node.depth : Node → Nat
  | .help _ => 0
  | .cmd prev _ _ => prev.depth + 1

/-- The handler ids invoked in an event trace. -/
def runs (evs : List Ev) : List Nat :=
  evs.filterMap fun e =>
    match e with
    | .run h => some h
    | .out _ => none

/-- Helper: no tree layer ever declares fields (`field()` records
nothing and `Help::has_fields` is `false`). -/
theorem has_fields_false : (n : Node) → n.has_fields = false
  | .help _ => rfl
  | .cmd prev _ _ => has_fields_false prev

/-- Helper: no tree layer ever declares flags. -/
theorem has_flags_false : (n : Node) → n.has_flags = false
  | .help _ => rfl
  | .cmd prev _ _ => has_flags_false prev

/-- Helper: no tree layer ever declares parameters. -/
theorem has_params_false : (n : Node) → n.has_params = false
  | .help _ => rfl
  | .cmd prev _ _ => has_params_false prev

/-- Helper: `help_cmds` succeeds on any node whose constructor cells
are all still present. -/
theorem help_cmds_of_cells_full : (n : Node) → (hf : Bool) →
    n.cells_full = true → ∃ t n2, n.help_cmds hf = some (t, n2)
  | .help s, hf, _ => ⟨_, _, rfl⟩
  | .cmd prev nm fcell, hf, hfull => by
    simp only [Node.cells_full, Bool.and_eq_true, Option.isSome_iff_exists] at hfull
    obtain ⟨⟨sub, rfl⟩, hprev⟩ := hfull
    obtain ⟨t, n2, ht⟩ := help_cmds_of_cells_full prev hf hprev
    have ht2 : (Node.cmd prev nm (some sub)).help_cmds hf =
        some (t ++ (if hf then "   --" ++ nm ++ "\n      " ++ (Clot.opts sub).get_help_text ++ "\n"
                    else "   " ++ nm ++ "\n      " ++ (Clot.opts sub).get_help_text ++ "\n"),
              .cmd n2 nm none) := by
      simp [Node.help_cmds, ht]
    exact ⟨_, _, ht2⟩

/-- Helper: the full help screen renders successfully on a fresh tree,
and its text is the tree's description followed by the usage header. -/
theorem help_of_cells_full (n : Node) (name : Token) (hf : Bool)
    (h : n.cells_full = true) :
    ∃ r n2, help n name hf =
      some (n.get_help_text ++ "\n\nUsage:\n" ++ r, n2) := by
  obtain ⟨t, n2, ht⟩ := help_cmds_of_cells_full n hf h
  refine ⟨(if hf then name.lossy ++ " [OPTIONS] [FIELDS] [OPTIONS]\n" else "") ++
      "   " ++ name.lossy ++ " [COMMAND] ...\n\n" ++
      ((if hf then n.help_fields name else "") ++
       ((if n.has_flags then n.help_flags hf name else "") ++
        ((if n.has_params then n.help_params name else "") ++
         ("Commands:\n" ++ (t ++ "\n"))))), n2, ?_⟩
  simp only [help, ht, Option.bind_eq_bind, Option.some_bind]
  congr 2
  simp [String.append_assoc]

/-- Helper: the only possible outcomes of `Node::branch` are a panic,
`Done`, or `Help` with the cursor, the node and the event list
untouched.  In particular no implementor ever produces `Skip`. -/
theorem branch_shape : (fuel : Nat) → (n : Node) →
    ∀ (what : Token) (hf : Bool) (name : Token) (args : List Token),
    Node.branch fuel n what hf name args = none ∨
    (∃ n2 evs, Node.branch fuel n what hf name args = some (.done, n2, evs)) ∨
    Node.branch fuel n what hf name args = some (.help args, n, [])
  | 0, _ => by intro what hf name args; exact Or.inl rfl
  | fuel + 1, .help s => by
    intro what hf name args
    exact Or.inr (Or.inr rfl)
  | fuel + 1, .cmd prev nm fcell => by
    intro what hf name args
    rcases branch_shape fuel prev what hf name args with hp | ⟨n2, evs, hp⟩ | hp
    · exact Or.inl (by simp only [Node.branch, hp])
    · exact Or.inr (Or.inl ⟨.cmd n2 nm fcell, evs, by simp only [Node.branch, hp]⟩)
    · by_cases hm : match_token what hf = some nm
      · cases fcell with
        | none => exact Or.inl (by simp only [Node.branch, hp]; simp [hm])
        | some sub =>
          cases hex : Clot.execute_with fuel sub (.str nm) args with
          | none => exact Or.inl (by simp only [Node.branch, hp]; simp [hm, hex])
          | some evs2 =>
            exact Or.inr (Or.inl ⟨.cmd prev nm none, evs2,
              by simp only [Node.branch, hp]; simp [hm, hex]⟩)
      · exact Or.inr (Or.inr (by simp only [Node.branch, hp]; simp [hm]))

/-- Helper: a `Help` outcome of `branch` always hands the cursor back
unchanged, emits no events and leaves the node (all cells) intact. -/
theorem branch_help_intact (fuel : Nat) (n : Node) (what : Token)
    (hf : Bool) (name : Token) (args args2 : List Token) (n2 : Node)
    (evs : List Ev)
    (h : Node.branch fuel n what hf name args = some (.help args2, n2, evs)) :
    args2 = args ∧ n2 = n ∧ evs = [] := by
  rcases branch_shape fuel n what hf name args with hp | ⟨n3, evs3, hp⟩ | hp
  · rw [hp] at h; exact Option.noConfusion h
  · rw [hp] at h
    simp only [Option.some.injEq, Prod.mk.injEq] at h
    exact absurd h.1 (by intro hh; exact Branch.noConfusion hh)
  · rw [hp] at h
    simp only [Option.some.injEq, Prod.mk.injEq, Branch.help.injEq] at h
    exact ⟨h.1.symm, h.2.1.symm, h.2.2.symm⟩

/-- C1: the claim fails on the code.  When the root level registers a
terminal handler and the sole argument is an unrecognized token, the
driver prints the two-part unexpected-argument message and then STILL
invokes the registered handler: the `Branch::Help` arm of
`execute_with` only `break`s out of the loop, after which control falls
through to the `cmd_fn` call (src/lib.rs:236,242-244). -/
theorem C1_unexpected_then_handler_runs :
    Clot.execute_with 20 (Clot.run (Clot.new "d") 7) (.str "prog") [.str "bogus"] =
      some (unexpected (.str "prog") (.str "bogus") ++ [.run 7]) := rfl

/-- C8 counterexample: `cmd` with the empty string does NOT fail at
construction time — the empty string passes all four `assert!`s, so
the builder returns a tree. -/
theorem C8_counterexample :
    (Clot.cmd (Clot.new "d") "" (Clot.new "s")).isSome = true := rfl

/-- C8 amended: calling `cmd` with the empty string succeeds (there is
no emptiness check among the four validation asserts) and builds a
branch layer whose name is the empty string. -/
theorem C8_empty_name_builds (c sub : Clot) :
    Clot.cmd c "" sub = some (.mk (.cmd c.opts "" (some sub)) c.cmd_fn) := rfl

/-- C9: a token that is not valid UTF-8 never matches at any branch:
`branch` never panics on it and always returns the `Help` (unmatched)
outcome with the cursor, the node and the event trace untouched
(`OsStr::to_str` fails, src/node.rs:168-170).  The `fuel` bound is an
artifact of the embedding and is satisfiable for every tree. -/
theorem C9_non_utf8_never_matches : (fuel : Nat) → (n : Node) →
    ∀ (what : Token) (hf : Bool) (name : Token) (args : List Token),
    what.toStr = none → n.depth < fuel →
    Node.branch fuel n what hf name args = some (.help args, n, [])
  | 0, n => fun _ _ _ _ _ hd => absurd hd (Nat.not_lt_zero _)
  | fuel + 1, .help s => fun _ _ _ _ _ _ => rfl
  | fuel + 1, .cmd prev nm fcell => by
    intro what hf name args hu hd
    have hd2 : prev.depth < fuel := by
      simp only [Node.depth] at hd; omega
    have ih := C9_non_utf8_never_matches fuel prev what hf name args hu hd2
    have hmt : match_token what hf = none := by
      simp [match_token, hu]
    simp only [Node.branch, ih]
    simp [hmt]

theorem C9_witness :
    Token.toStr (.raw 0) = none ∧
    Node.depth (.cmd (.help "d") "sub" (some (Clot.mk (.help "x") none))) < 2 ∧
    Node.branch 2 (.cmd (.help "d") "sub" (some (Clot.mk (.help "x") none)))
        (.raw 0) false (.str "p") [.str "t"] =
      some (.help [.str "t"],
        .cmd (.help "d") "sub" (some (Clot.mk (.help "x") none)), []) :=
  ⟨rfl, by decide,
    C9_non_utf8_never_matches 2 _ (.raw 0) false (.str "p") [.str "t"] rfl (by decide)⟩

/-- C10: the builder records no fields, flags or parameters anywhere:
every node reports `has_fields`/`has_flags`/`has_params` false;
`field`/`param` return the tree unchanged and `flag` (on a valid flag
character) does too; bare `help` is therefore always an accepted help
token; token matching is always verbatim (`match_token` degenerates to
`to_str`, the `--`-stripping path is never taken); and the `Opts` view
handed to any handler answers `false`/`none`/`none` for every
flag/param/field query. -/
theorem C10_builder_records_nothing :
    (∀ n : Node, n.has_fields = false ∧ n.has_flags = false ∧ n.has_params = false) ∧
    (∀ c : Clot, Clot.field c = c) ∧
    (∀ (c : Clot) (p : String), Clot.param c p = c) ∧
    (∀ (c : Clot) (ch : Char), is_ascii_lowercase ch = true → Clot.flag c ch = some c) ∧
    (∀ n : Node, is_help (.str "help") n.has_fields = true) ∧
    (∀ (n : Node) (what : Token), match_token what n.has_fields = what.toStr) ∧
    (∀ (n : Node) (ch : Char), Opts.flag n ch = false) ∧
    (∀ (n : Node) (p : String), Opts.param n p = none) ∧
    (∀ (n : Node) (i : Nat), Opts.field n i = none) := by
  refine ⟨fun n => ⟨has_fields_false n, has_flags_false n, has_params_false n⟩,
    fun c => rfl, fun c p => rfl, fun c ch hch => ?_, fun n => ?_, fun n what => ?_,
    fun n ch => rfl, fun n p => rfl, fun n i => rfl⟩
  · simp [Clot.flag, hch]
  · rw [has_fields_false n]; rfl
  · rw [has_fields_false n]; cases what <;> rfl

theorem C10_witness :
    is_ascii_lowercase 'v' = true ∧
    Clot.flag (Clot.new "x") 'v' = some (Clot.new "x") :=
  ⟨rfl, C10_builder_records_nothing.2.2.2.1 (Clot.new "x") 'v' rfl⟩

/-- C3 counterexample: rendering help twice on a tree with one
subcommand branch fails the second time.  The first render consumes
the branch's one-shot constructor cell
(`self.f.take().unwrap()`, src/node.rs:130), so the second render
panics. -/
theorem C3_counterexample :
    (help (Node.cmd (.help "root") "sub" (some (Clot.mk (.help "sd") none)))
        (.str "p") false).isSome = true ∧
    ((help (Node.cmd (.help "root") "sub" (some (Clot.mk (.help "sd") none)))
        (.str "p") false).bind
      fun p => help p.2 (.str "p") false) = none := ⟨rfl, rfl⟩

/-- C3 amended: help rendering is idempotent only for branch-free
trees: on a leaf, two successive renders both succeed and produce
byte-identical output; on any tree whose outermost layer is a
subcommand branch, the second render panics because the first one
consumed the branch's one-shot constructor cell. -/
theorem C3_render_idempotent_only_leaf (s : String) (name : Token) (hf : Bool) :
    (∃ t, help (.help s) name hf = some (t, .help s) ∧
      ((help (.help s) name hf).bind fun p => help p.2 name hf) =
        some (t, .help s)) ∧
    (∀ (prev : Node) (nm : String) (fcell : Option Clot),
      ((help (.cmd prev nm fcell) name hf).bind fun p => help p.2 name hf) =
        none) := by
  constructor
  · cases hf <;> exact ⟨_, rfl, rfl⟩
  · intro prev nm fcell
    cases fcell with
    | none => simp [help, Node.help_cmds]
    | some sub =>
      cases hp : prev.help_cmds hf with
      | none => simp [help, Node.help_cmds, hp]
      | some p =>
        simp [help, Node.help_cmds, hp]

/-- C5: the branch-matching protocol of `Cmd::branch`
(src/node.rs:156-185): (a) the previous (older) layer is tried first
and a `Done` from it is final, the current layer's comparison being
skipped; (b) if the previous layer does not match and the token —
via `match_token`: stripped of a leading `--` when the level accepts
fields, verbatim otherwise — equals this layer's name, the deferred
constructor cell is consumed (exactly once: it is `some sub` before,
`none` in the returned node) and the remaining cursor is dispatched
into the freshly built subtree, the outcome being `Done`; (c) on
inequality the outcome is `Help` (unmatched) with the cursor handed
back with no tokens consumed, no events, and the cell untouched. -/
theorem C5_branch_protocol (fuel : Nat) (prev : Node) (nm : String)
    (fcell : Option Clot) (what : Token) (hf : Bool) (name : Token)
    (args : List Token) :
    (∀ prev2 evs,
      Node.branch fuel prev what hf name args = some (.done, prev2, evs) →
      Node.branch (fuel + 1) (.cmd prev nm fcell) what hf name args =
        some (.done, .cmd prev2 nm fcell, evs)) ∧
    (∀ args2 prev2 evs sub,
      Node.branch fuel prev what hf name args = some (.help args2, prev2, evs) →
      fcell = some sub →
      match_token what hf = some nm →
      Node.branch (fuel + 1) (.cmd prev nm fcell) what hf name args =
        (Clot.execute_with fuel sub (.str nm) args2).map
          (fun evs2 => (.done, .cmd prev2 nm none, evs ++ evs2))) ∧
    (∀ args2 prev2 evs,
      Node.branch fuel prev what hf name args = some (.help args2, prev2, evs) →
      match_token what hf ≠ some nm →
      Node.branch (fuel + 1) (.cmd prev nm fcell) what hf name args =
        some (.help args, .cmd prev nm fcell, [])) := by
  refine ⟨fun prev2 evs h => ?_, fun args2 prev2 evs sub h hc hm => ?_,
    fun args2 prev2 evs h hm => ?_⟩
  · simp only [Node.branch, h]
  · subst hc
    simp only [Node.branch, h]
    simp only [hm, if_pos]
    cases hex : Clot.execute_with fuel sub (.str nm) args2 <;> simp [hex]
  · obtain ⟨rfl, rfl, rfl⟩ := branch_help_intact fuel prev what hf name args args2 prev2 evs h
    simp only [Node.branch, h]
    simp [hm]

theorem C5_witness :
    Node.branch 1 (.help "d") (.str "zzz") false (.str "p") [.str "t"] =
      some (.help [.str "t"], .help "d", []) ∧
    match_token (.str "zzz") false ≠ some "sub" ∧
    Node.branch 2 (.cmd (.help "d") "sub" (some (Clot.mk (.help "x") none)))
        (.str "zzz") false (.str "p") [.str "t"] =
      some (.help [.str "t"],
        .cmd (.help "d") "sub" (some (Clot.mk (.help "x") none)), []) :=
  ⟨rfl, by simp [match_token, Token.toStr],
    (C5_branch_protocol 1 (.help "d") "sub" (some (Clot.mk (.help "x") none))
        (.str "zzz") false (.str "p") [.str "t"]).2.2
      [.str "t"] (.help "d") [] rfl (by simp [match_token, Token.toStr])⟩

/-- C6: with an empty cursor, a level without a terminal handler
renders full help (starting with the description and the usage header)
and stops without invoking any handler, while a level with a terminal
handler invokes exactly that handler once and renders no help
(src/lib.rs:217-219, 242-245). -/
theorem C6_empty_cursor (fuel : Nat) (opts : Node) (pname : Token) :
    (opts.cells_full = true →
      ∃ r, Clot.execute_with (fuel + 2) (.mk opts none) pname [] =
        some [.out (opts.get_help_text ++ "\n\nUsage:\n" ++ r)]) ∧
    (∀ h, Clot.execute_with (fuel + 2) (.mk opts (some h)) pname [] =
      some [.run h]) := by
  constructor
  · intro hcells
    obtain ⟨r, n2, hh⟩ := help_of_cells_full opts pname opts.has_fields hcells
    exact ⟨r, by simp [Clot.execute_with, exec_loop, hh]⟩
  · intro h
    simp [Clot.execute_with, exec_loop]

theorem C6_witness :
    Node.cells_full (.cmd (.help "d") "sub" (some (Clot.mk (.help "x") none))) = true ∧
    (∃ r, Clot.execute_with 2
        (.mk (.cmd (.help "d") "sub" (some (Clot.mk (.help "x") none))) none)
        (.str "p") [] =
      some [.out (Node.get_help_text
        (.cmd (.help "d") "sub" (some (Clot.mk (.help "x") none))) ++
        "\n\nUsage:\n" ++ r)]) ∧
    Clot.execute_with 2 (.mk (.help "d") (some 7)) (.str "p") [] = some [.run 7] :=
  ⟨rfl,
    (C6_empty_cursor 0 (.cmd (.help "d") "sub" (some (Clot.mk (.help "x") none)))
      (.str "p")).1 rfl,
    (C6_empty_cursor 0 (.help "d") (.str "p")).2 7⟩

/-- C2 counterexample: `help` is a valid command name by the stated
grammar and is accepted by the builder, yet dispatching the single
token `help` renders the help screen instead of invoking the subtree's
terminal handler 7 — the bare `help` token is checked before branch
matching (src/lib.rs:222-230). -/
theorem C2_counterexample :
    Clot.cmd (Clot.new "d") "help" (Clot.run (Clot.new "s") 7) =
      some (Clot.mk (.cmd (.help "d") "help"
        (some (Clot.mk (.help "s") (some 7)))) none) ∧
    (Clot.execute_with 20
      (Clot.mk (.cmd (.help "d") "help" (some (Clot.mk (.help "s") (some 7)))) none)
      (.str "p") [.str "help"]).map runs = some [] := ⟨rfl, rfl⟩

/-- C2 amended: for every command name the builder accepts, except the
reserved help token `help` itself, building a single-level tree whose
one subcommand registers terminal handler `h` and dispatching exactly
that name invokes handler `h` exactly once and no other handler (the
event trace is exactly `[run h]`). -/
theorem C2_valid_name_dispatches (fuel : Nat) (d d2 : String) (h : Nat)
    (name : String) (pname : Token) (c : Clot)
    (hbuild : Clot.cmd (Clot.new d) name (Clot.run (Clot.new d2) h) = some c)
    (hname : name ≠ "help") :
    Clot.execute_with (fuel + 5) c pname [.str name] = some [.run h] := by
  have hname2 : name ≠ "--help" := by
    rintro rfl
    rw [show Clot.cmd (Clot.new d) "--help" (Clot.run (Clot.new d2) h) = none from by
      simp +decide [Clot.cmd]] at hbuild
    exact Option.noConfusion hbuild
  simp only [Clot.cmd, Clot.new, Clot.run, Clot.opts, Clot.cmd_fn] at hbuild
  split_ifs at hbuild
  injection hbuild with hc
  subst hc
  simp [Clot.execute_with, exec_loop, Node.branch, maybe_help, is_help,
    match_token, Token.toStr, Node.has_fields, Clot.opts, Clot.cmd_fn,
    hname, hname2]

theorem C2_witness :
    Clot.cmd (Clot.new "d") "build" (Clot.run (Clot.new "s") 7) =
      some (Clot.mk (.cmd (.help "d") "build"
        (some (Clot.mk (.help "s") (some 7)))) none) ∧
    "build" ≠ "help" ∧
    Clot.execute_with 5
      (Clot.mk (.cmd (.help "d") "build" (some (Clot.mk (.help "s") (some 7)))) none)
      (.str "p") [.str "build"] = some [.run 7] :=
  ⟨rfl, by decide,
    C2_valid_name_dispatches 0 "d" "s" 7 "build" (.str "p") _ rfl (by decide)⟩

/-- C4: `--help` is a recognized help token at every level whether or
not fields are declared, and bare `help` is additionally recognized at
field-free levels; when the recognized help token is the sole remaining
argument, the help screen is printed starting with the level's
description followed by the usage header and no terminal handler runs;
when any token follows the help token, that following token is
reported with the unexpected-argument message and again no handler
runs (src/lib.rs:221-231, src/node.rs:225-250). -/
theorem C4_help_token_handling (fuel : Nat) (opts : Node) (cf : Option Nat)
    (pname : Token) :
    (∀ hf, is_help (.str "--help") hf = true) ∧
    (is_help (.str "help") false = true) ∧
    (opts.cells_full = true →
      ∀ tok, is_help tok opts.has_fields = true →
      ∃ r, Clot.execute_with (fuel + 2) (.mk opts cf) pname [tok] =
        some [.out (opts.get_help_text ++ "\n\nUsage:\n" ++ r)]) ∧
    (∀ tok a more, is_help tok opts.has_fields = true →
      Clot.execute_with (fuel + 2) (.mk opts cf) pname (tok :: a :: more) =
        some (unexpected pname a)) := by
  refine ⟨fun hf => by cases hf <;> rfl, rfl, fun hcells tok htok => ?_,
    fun tok a more htok => ?_⟩
  · obtain ⟨r, n2, hh⟩ := help_of_cells_full opts pname opts.has_fields hcells
    exact ⟨r, by simp [Clot.execute_with, exec_loop, maybe_help, htok, hh]⟩
  · simp [Clot.execute_with, exec_loop, maybe_help, htok]

theorem C4_witness :
    Node.cells_full (.cmd (.help "d") "sub" (some (Clot.mk (.help "x") none))) = true ∧
    is_help (.str "--help")
      (Node.has_fields (.cmd (.help "d") "sub" (some (Clot.mk (.help "x") none)))) = true ∧
    (∃ r, Clot.execute_with 2
        (.mk (.cmd (.help "d") "sub" (some (Clot.mk (.help "x") none))) (some 9))
        (.str "p") [.str "--help"] =
      some [.out (Node.get_help_text
        (.cmd (.help "d") "sub" (some (Clot.mk (.help "x") none))) ++
        "\n\nUsage:\n" ++ r)]) ∧
    Clot.execute_with 2
        (.mk (.cmd (.help "d") "sub" (some (Clot.mk (.help "x") none))) (some 9))
        (.str "p") [.str "--help", .str "zz"] =
      some (unexpected (.str "p") (.str "zz")) :=
  ⟨rfl, rfl,
    (C4_help_token_handling 0 (.cmd (.help "d") "sub" (some (Clot.mk (.help "x") none)))
      (some 9) (.str "p")).2.2.1 rfl (.str "--help") rfl,
    (C4_help_token_handling 0 (.cmd (.help "d") "sub" (some (Clot.mk (.help "x") none)))
      (some 9) (.str "p")).2.2.2 (.str "--help") (.str "zz") [] rfl⟩

/-- C7: construction-time validation is fatal before any argument token
is examined: a command name containing an uppercase letter or a digit,
or starting or ending with `-`, makes `cmd` panic (the `assert!`s at
src/lib.rs:173-176), and a flag character outside `a`-`z` makes `flag`
panic (src/lib.rs:195-201) — the builders are pure functions of the
tree alone, independent of any argument vector. -/
theorem C7_build_time_validation :
    (∀ (c sub : Clot) (name : String),
      ((∃ ch ∈ name.data, 'A' ≤ ch ∧ ch ≤ 'Z') ∨
       (∃ ch ∈ name.data, '0' ≤ ch ∧ ch ≤ '9') ∨
       name.data.head? = some '-' ∨
       name.data.getLast? = some '-') →
      Clot.cmd c name sub = none) ∧
    (∀ (c : Clot) (ch : Char), ¬ ('a' ≤ ch ∧ ch ≤ 'z') →
      Clot.flag c ch = none) := by
  constructor
  · intro c sub name hbad
    simp only [Clot.cmd]
    split_ifs with h1 h2 h3 h4
    all_goals try rfl
    all_goals exfalso
    all_goals
      rcases hbad with ⟨ch, hmem, hA, hZ⟩ | ⟨ch, hmem, h0, h9⟩ | hh | hh
      · refine h1 (List.any_eq_true.mpr ⟨ch, hmem, ?_⟩)
        have hlt : ch < 'a' := lt_of_le_of_lt hZ (by decide)
        have hne : ch ≠ '-' := by
          intro hd; subst hd; exact absurd hA (by decide)
        simp [invalid_char, is_ascii_lowercase, not_le.mpr hlt, hne]
      · refine h1 (List.any_eq_true.mpr ⟨ch, hmem, ?_⟩)
        have hlt : ch < 'a' := lt_of_le_of_lt h9 (by decide)
        have hne : ch ≠ '-' := by
          intro hd; subst hd; exact absurd h0 (by decide)
        simp [invalid_char, is_ascii_lowercase, not_le.mpr hlt, hne]
      · exact h3 hh
      · exact h4 hh
  · intro c ch hch
    have hlow : is_ascii_lowercase ch = false := by
      simp only [is_ascii_lowercase, Bool.and_eq_false_iff,
        decide_eq_false_iff_not]
      by_cases h1 : 'a' ≤ ch
      · exact Or.inr fun h2 => hch ⟨h1, h2⟩
      · exact Or.inl h1
    simp [Clot.flag, hlow]

theorem C7_witness :
    Clot.cmd (Clot.new "x") "Bad" (Clot.new "y") = none ∧
    Clot.flag (Clot.new "x") '!' = none :=
  ⟨C7_build_time_validation.1 (Clot.new "x") (Clot.new "y") "Bad"
      (Or.inl ⟨'B', by decide, by decide, by decide⟩),
    C7_build_time_validation.2 (Clot.new "x") '!' (by decide)⟩

end ClotSpec
